import Mathlib

/-!
Verification development for the FigCombo layout-code parser and validator
(`web/layout_parser.py`).  The Python module is shallowly embedded: strings
are `List Char`, Python dicts that preserve insertion order are association
lists with update-in-place semantics, exceptions are `Except` / `Option`,
and Python floats (which here only ever arise from parsing decimal literals
such as `0.35`) are modelled exactly as decimal fractions `num / den` with
`den` a power of ten.  Imperative loops are translated into structural
recursions, using an explicit fuel argument (always called with sufficient
fuel) where the loop re-assigns the scanned string.
-/

namespace FigCombo

/-! ## Small utilities: Python string/list primitives -/

/-- Python `str.strip()` whitespace set (the characters relevant here). -/
def isPySpace (c : Char) : Bool :=
  c == ' ' || c == '\t' || c == '\n' || c == '\r' || c == '\x0b' || c == '\x0c'

/-- Python `str.strip()`: drop leading and trailing whitespace. -/
def stripChars (l : List Char) : List Char :=
  ((l.dropWhile isPySpace).reverse.dropWhile isPySpace).reverse

/-- Python `str.split(sep)` for a one-character separator: keeps empty pieces. -/
def splitOnChar (sep : Char) : List Char → List (List Char)
  | [] => [[]]
  | c :: rest =>
    match splitOnChar sep rest with
    | [] => [[]]
    | g :: gs => if c == sep then [] :: g :: gs else (c :: g) :: gs

/-- Python `str.find(c, start)`: index of the first occurrence of `c`
at position `start` or later, if any. -/
def charFind (code : List Char) (c : Char) (start : Nat) : Option Nat :=
  match (code.drop start).findIdx? (· == c) with
  | none => none
  | some k => some (start + k)

/-- Python `min` of a list of naturals (callers guarantee nonempty). -/
def natMin : List Nat → Nat
  | [] => 0
  | x :: xs => xs.foldl Nat.min x

/-- Python `max` of a list of naturals (callers guarantee nonempty). -/
def natMax : List Nat → Nat
  | [] => 0
  | x :: xs => xs.foldl Nat.max x

/-- Python `int(...)` on a nonempty digit string. -/
def natOfDigits (l : List Char) : Nat :=
  l.foldl (fun a c => a * 10 + (c.toNat - 48)) 0

/-- Python `enumerate` starting at `s`. -/
def enumFromN (s : Nat) : List α → List (Nat × α)
  | [] => []
  | a :: as => (s, a) :: enumFromN (s + 1) as

/-- Ordered association list with Python-dict semantics: `d[k] = v`
overwrites in place, otherwise appends at the end. -/
def assocUpsert [BEq κ] (d : List (κ × α)) (k : κ) (v : α) : List (κ × α) :=
  if d.any (fun p => p.1 == k) then
    d.map (fun p => if p.1 == k then (k, v) else p)
  else d ++ [(k, v)]

/-- Python `d.setdefault(k, []).append(v)` pattern used for the inset dict:
append `v` to the list stored at `k`, creating the entry at the end if new. -/
def assocAppend [BEq κ] (d : List (κ × List α)) (k : κ) (v : α) : List (κ × List α) :=
  if d.any (fun p => p.1 == k) then
    d.map (fun p => if p.1 == k then (p.1, p.2 ++ [v]) else p)
  else d ++ [(k, [v])]

/-- Python dict lookup `d.get(k)`. -/
def assocGet [BEq κ] (d : List (κ × α)) (k : κ) : Option α :=
  match d.find? (fun p => p.1 == k) with
  | none => none
  | some p => some p.2

/-! ## Exact decimal fractions standing in for Python floats

Every float in the parser comes from `float(...)` applied to a decimal
literal matched by `[0-9.]+`, so the values are nonnegative decimals; they
are modelled exactly as `num / den` with `den` a power of ten.  All
comparisons the validator performs on them are modelled by exact rational
comparison (for the magnitudes involved the float rounding of the source
can never flip any of these comparisons). -/

structure Frac where
  num : Nat
  den : Nat
deriving DecidableEq, Repr

def Frac.le (a b : Frac) : Bool := a.num * b.den ≤ b.num * a.den

def Frac.lt (a b : Frac) : Bool := a.num * b.den < b.num * a.den

def Frac.add (a b : Frac) : Frac := ⟨a.num * b.den + b.num * a.den, a.den * b.den⟩

def Frac.zero : Frac := ⟨0, 1⟩

def Frac.one : Frac := ⟨1, 1⟩

/-- Python `float(s)` for strings drawn from the character class `[0-9.]+`:
defined exactly when there is at most one dot and at least one digit. -/
def parseFloat (l : List Char) : Option Frac :=
  if l.all (fun c => c.isDigit || c == '.') && l.any Char.isDigit
      && l.count '.' ≤ 1 then
    let ip := l.takeWhile Char.isDigit
    match l.drop ip.length with
    | [] => some ⟨natOfDigits ip, 1⟩
    | _ :: fp => some ⟨natOfDigits ip * 10 ^ fp.length + natOfDigits fp, 10 ^ fp.length⟩
  else none

/-! ## Data model: `NodeType`, metadata, `LayoutNode`, `LayoutTree` -/

/-- The `NodeType` enum (`sec` stands for the Python member `SECTION`,
since `section` is a Lean keyword). -/
inductive NodeType where
  | root
  | sec
  | panel
  | subPanel
  | inset
  | grid
deriving DecidableEq, Repr

/-- The string payload of each enum member, as used by `to_dict`. -/
def NodeType.value : NodeType → String
  | .root => "root"
  | .sec => "section"
  | .panel => "panel"
  | .subPanel => "sub_panel"
  | .inset => "inset"
  | .grid => "grid"

/-- `NodeType(s)`: recover the member from its value; `none` models the
`ValueError` Python raises on an unknown value. -/
def NodeType.ofValue (s : String) : Option NodeType :=
  if s = "root" then some .root
  else if s = "section" then some .sec
  else if s = "panel" then some .panel
  else if s = "sub_panel" then some .subPanel
  else if s = "inset" then some .inset
  else if s = "grid" then some .grid
  else none

/-- Validation diagnostics.  The source appends formatted strings to the
error list; each constructor stands for one of those format sites and
carries the data interpolated there. -/
inductive Diag where
  | noPanels
  | badDims (nrows ncols : Nat)
  | dupId (id : String)
  | overlap (id1 id2 : String)
  | gaps (cells : List (Nat × Nat))
  | subPanelOverflow (id : String) (count expected : Nat)
  | subPanelDup (id : String) (row col : Option Nat)
  | insetPos (id : String) (x y : Frac)
  | insetSize (id : String) (w h : Frac)
  | insetOut (id : String)
deriving DecidableEq, Repr

/-- Values stored in a node's open `metadata` dict. -/
inductive MetaVal where
  | nat (n : Nat)
  | num (q : Frac)
  | str (s : String)
  | bounds (x y w h : Frac)
  | numList (l : List Frac)
  | shape (nrows ncols : Nat)
  | diags (l : List Diag)
deriving DecidableEq, Repr

/-- A node's metadata: an insertion-ordered string-keyed dict. -/
abbrev Metadata := List (String × MetaVal)

/-- The `LayoutNode` dataclass.  Field order follows the source. -/
inductive LayoutNode where
  | mk (node_type : NodeType) (id : String) (label : Option String)
      (row : Option Nat) (col : Option Nat) (rowspan : Nat) (colspan : Nat)
      (children : List LayoutNode) (metadata : Metadata)
      (parent : Option String)

def LayoutNode.node_type : LayoutNode → NodeType
  | .mk t _ _ _ _ _ _ _ _ _ => t

def LayoutNode.id : LayoutNode → String
  | .mk _ i _ _ _ _ _ _ _ _ => i

def LayoutNode.label : LayoutNode → Option String
  | .mk _ _ l _ _ _ _ _ _ _ => l

def LayoutNode.row : LayoutNode → Option Nat
  | .mk _ _ _ r _ _ _ _ _ _ => r

def LayoutNode.col : LayoutNode → Option Nat
  | .mk _ _ _ _ c _ _ _ _ _ => c

def LayoutNode.rowspan : LayoutNode → Nat
  | .mk _ _ _ _ _ rs _ _ _ _ => rs

def LayoutNode.colspan : LayoutNode → Nat
  | .mk _ _ _ _ _ _ cs _ _ _ => cs

def LayoutNode.children : LayoutNode → List LayoutNode
  | .mk _ _ _ _ _ _ _ ch _ _ => ch

def LayoutNode.metadata : LayoutNode → Metadata
  | .mk _ _ _ _ _ _ _ _ md _ => md

def LayoutNode.parent : LayoutNode → Option String
  | .mk _ _ _ _ _ _ _ _ _ p => p

/-- Replace the children list (models in-place mutation of `node.children`). -/
def LayoutNode.withChildren : LayoutNode → List LayoutNode → LayoutNode
  | .mk t i l r c rs cs _ md p, ch => .mk t i l r c rs cs ch md p

/-- Replace the metadata dict (models in-place mutation of `node.metadata`). -/
def LayoutNode.withMetadata : LayoutNode → Metadata → LayoutNode
  | .mk t i l r c rs cs ch _ p, md => .mk t i l r c rs cs ch md p

/-- Copy position info from another node (the placeholder-to-section step). -/
def LayoutNode.withPosOf : LayoutNode → LayoutNode → LayoutNode
  | .mk t i l _ _ _ _ ch md p, o => .mk t i l o.row o.col o.rowspan o.colspan ch md p

mutual

/-- `LayoutNode.get_descendant`: depth-first search by id, the node itself
first, then its children left to right. -/
def LayoutNode.get_descendant (n : LayoutNode) (nodeId : String) : Option LayoutNode :=
  match n with
  | .mk _ i _ _ _ _ _ ch _ _ =>
    if i == nodeId then some n else LayoutNode.getDescendantList ch nodeId

def LayoutNode.getDescendantList (l : List LayoutNode) (nodeId : String) : Option LayoutNode :=
  match l with
  | [] => none
  | c :: cs =>
    match c.get_descendant nodeId with
    | some r => some r
    | none => LayoutNode.getDescendantList cs nodeId

end

mutual

/-- `LayoutNode.get_all_panel_ids`: ids of `PANEL` and `SUB_PANEL` nodes in
preorder. -/
def LayoutNode.get_all_panel_ids (n : LayoutNode) : List String :=
  match n with
  | .mk t i _ _ _ _ _ ch _ _ =>
    (if t = .panel ∨ t = .subPanel then [i] else []) ++ LayoutNode.getAllPanelIdsList ch

def LayoutNode.getAllPanelIdsList (l : List LayoutNode) : List String :=
  match l with
  | [] => []
  | c :: cs => c.get_all_panel_ids ++ LayoutNode.getAllPanelIdsList cs

end

mutual

/-- Preorder listing of all nodes of a subtree (specification device for
`get_descendant`; not part of the source). -/
def LayoutNode.preorder (n : LayoutNode) : List LayoutNode :=
  match n with
  | .mk _ _ _ _ _ _ _ ch _ _ => n :: LayoutNode.preorderList ch

def LayoutNode.preorderList (l : List LayoutNode) : List LayoutNode :=
  match l with
  | [] => []
  | c :: cs => c.preorder ++ LayoutNode.preorderList cs

end

mutual

/-- Apply `f` to the first node (in `get_descendant` order) whose id is
`nodeId`; `none` when absent.  This models the Python idiom of looking a
node up with `get_descendant` and then mutating it in place. -/
def LayoutNode.updateFirst (n : LayoutNode) (nodeId : String) (f : LayoutNode → LayoutNode) :
    Option LayoutNode :=
  match n with
  | .mk t i l r c rs cs ch md p =>
    if i == nodeId then some (f n)
    else
      match LayoutNode.updateFirstList ch nodeId f with
      | none => none
      | some ch2 => some (.mk t i l r c rs cs ch2 md p)

def LayoutNode.updateFirstList (l : List LayoutNode) (nodeId : String) (f : LayoutNode → LayoutNode) :
    Option (List LayoutNode) :=
  match l with
  | [] => none
  | c :: cs =>
    match c.updateFirst nodeId f with
    | some c2 => some (c2 :: cs)
    | none =>
      match LayoutNode.updateFirstList cs nodeId f with
      | none => none
      | some cs2 => some (c :: cs2)

end

/-- The `LayoutTree` dataclass. -/
structure LayoutTree where
  root : LayoutNode
  nrows : Nat
  ncols : Nat
  row_ratios : List Frac
  col_ratios : List Frac
  raw_code : List Char
  version : String

/-- `LayoutTree.get_panel`. -/
def LayoutTree.get_panel (t : LayoutTree) (panelId : String) : Option LayoutNode :=
  t.root.get_descendant panelId

/-- `LayoutTree.get_all_panel_ids`. -/
def LayoutTree.get_all_panel_ids (t : LayoutTree) : List String :=
  t.root.get_all_panel_ids

/-! ## The plain-dict serialized form (`to_dict` / `from_dict`)

`to_dict` emits, per node, the dict
`node_type/id/label/row/col/rowspan/colspan/children/metadata/parent` and
then drops every key whose value is `None`.  `node_type`, `id`, `rowspan`,
`colspan`, `children` and `metadata` can never be `None`, so the dropped
keys are exactly the `none` branches of the optional fields, and the plain
form is represented with those fields still optional. -/

inductive PlainNode where
  | mk (node_type : String) (id : String) (label : Option String)
      (row : Option Nat) (col : Option Nat) (rowspan : Nat) (colspan : Nat)
      (children : List PlainNode) (metadata : Metadata)
      (parent : Option String)

structure PlainTree where
  root : PlainNode
  nrows : Nat
  ncols : Nat
  row_ratios : List Frac
  col_ratios : List Frac
  raw_code : List Char
  version : String

mutual

/-- `LayoutNode.to_dict`. -/
def LayoutNode.to_dict (n : LayoutNode) : PlainNode :=
  match n with
  | .mk t i l r c rs cs ch md p =>
    .mk t.value i l r c rs cs (LayoutNode.toDictList ch) md p

def LayoutNode.toDictList (l : List LayoutNode) : List PlainNode :=
  match l with
  | [] => []
  | c :: cs => c.to_dict :: LayoutNode.toDictList cs

end

mutual

/-- `LayoutNode.from_dict`; `none` models the `ValueError` raised by
`NodeType(...)` on an unknown `node_type` string. -/
def LayoutNode.from_dict (d : PlainNode) : Option LayoutNode :=
  match d with
  | .mk tv i l r c rs cs ch md p =>
    match NodeType.ofValue tv with
    | none => none
    | some t =>
      match LayoutNode.fromDictList ch with
      | none => none
      | some ch2 => some (.mk t i l r c rs cs ch2 md p)

def LayoutNode.fromDictList (l : List PlainNode) : Option (List LayoutNode) :=
  match l with
  | [] => some []
  | c :: cs =>
    match LayoutNode.from_dict c with
    | none => none
    | some c2 =>
      match LayoutNode.fromDictList cs with
      | none => none
      | some cs2 => some (c2 :: cs2)

end

/-- `LayoutTree.to_dict`. -/
def LayoutTree.to_dict (t : LayoutTree) : PlainTree :=
  ⟨t.root.to_dict, t.nrows, t.ncols, t.row_ratios, t.col_ratios, t.raw_code, t.version⟩

/-- `LayoutTree.from_dict`. -/
def LayoutTree.from_dict (d : PlainTree) : Option LayoutTree :=
  match LayoutNode.from_dict d.root with
  | none => none
  | some r => some ⟨r, d.nrows, d.ncols, d.row_ratios, d.col_ratios, d.raw_code, d.version⟩

/-! ## Errors and extractor descriptors -/

/-- Errors the parser can raise.  `nonRectangular`, `emptyCode`, `emptyGrid`
and `zeroCols` model `LayoutSyntaxError` sites; `validationFailed` models
the strict-mode `LayoutValidationError`; `badFloat` models the `ValueError`
escaping `float(...)`; `noSuchGroup` models the `IndexError` that
`process_multi_inset` would raise if the single-inset compatibility pattern
ever matched (its `match.group` name does not exist in that pattern); and
`keyMissing` models a `KeyError` on an impossible dict lookup. -/
inductive LayErr where
  | emptyCode
  | emptyGrid
  | zeroCols
  | nonRectangular (label : Char) (found expected : Nat)
  | validationFailed (errors : List Diag)
  | badFloat (s : List Char)
  | noSuchGroup
  | keyMissing (k : String)
deriving DecidableEq, Repr

/-- A recorded sub-panel descriptor (`sub_panels[panel]` in the source):
either a `RxC` grid spec or an ordered comma list, with the synthesized
label list stored alongside as the source does. -/
inductive SubSpec where
  | grid (nrows ncols : Nat) (labels : List String)
  | list (labels : List String) (items : List String)
deriving DecidableEq, Repr

/-- A recorded inset descriptor. -/
inductive InsetSpec where
  | absolute (x y w h : Frac)
  | grid (gridCode : List Char)
deriving DecidableEq, Repr

/-! ## Normalizer and grid parser -/

/-- `_clean_grid_code`: unify `/` and newline, strip every line, drop blank
lines, pad on the right to the longest line. -/
def clean_grid_code (code : List Char) : List (List Char) :=
  let code2 := code.map (fun c => if c == '/' then '\n' else c)
  let lines := ((splitOnChar '\n' code2).map stripChars).filter (fun l => !l.isEmpty)
  if lines.isEmpty then []
  else
    let maxLen := natMax (lines.map List.length)
    lines.map (fun l => l ++ List.replicate (maxLen - l.length) ' ')

/-- The character class admitted as a panel label by `_parse_grid`. -/
def isLabelChar (sectionChars : List Char) (ch : Char) : Bool :=
  !(ch == ' ' || ch == '.') && (ch.isAlphanum || sectionChars.contains ch)

/-- All characters of the grid, row-major (the nested iteration order of
`_parse_grid`). -/
def gridChars : List (List Char) → List Char
  | [] => []
  | l :: ls => l ++ gridChars ls

/-- The distinct labels of the grid in ascending character order
(`sorted(labels)` over the collected set). -/
def sortedLabels (sectionChars : List Char) (lines : List (List Char)) : List Char :=
  (((gridChars lines).filter (isLabelChar sectionChars)).dedup).insertionSort (· ≤ ·)

/-- Positions of `label` within one row, columns counted from `c0`. -/
def occRow (label : Char) (r : Nat) : Nat → List Char → List (Nat × Nat)
  | _, [] => []
  | c0, ch :: rest => (if ch == label then [(r, c0)] else []) ++ occRow label r (c0 + 1) rest

/-- Positions of `label` in the rows of `lines`, rows counted from `r`. -/
def occFrom (label : Char) : Nat → List (List Char) → List (Nat × Nat)
  | _, [] => []
  | r, line :: rest => occRow label r 0 line ++ occFrom label (r + 1) rest

/-- All `(row, col)` positions of `label` in the cleaned grid, row-major. -/
def occupied (lines : List (List Char)) (label : Char) : List (Nat × Nat) :=
  occFrom label 0 lines

def minRowOf (ps : List (Nat × Nat)) : Nat := natMin (ps.map Prod.fst)

def maxRowOf (ps : List (Nat × Nat)) : Nat := natMax (ps.map Prod.fst)

def minColOf (ps : List (Nat × Nat)) : Nat := natMin (ps.map Prod.snd)

def maxColOf (ps : List (Nat × Nat)) : Nat := natMax (ps.map Prod.snd)

/-- The cell count of the bounding rectangle,
`(max_r - min_r + 1) * (max_c - min_c + 1)`. -/
def rectArea (ps : List (Nat × Nat)) : Nat :=
  (maxRowOf ps - minRowOf ps + 1) * (maxColOf ps - minColOf ps + 1)

/-- The `PANEL` node `_parse_grid` builds for one label. -/
def mkPanelNode (lines : List (List Char)) (label : Char) : LayoutNode :=
  let ps := occupied lines label
  .mk .panel label.toString (some label.toUpper.toString)
    (some (minRowOf ps)) (some (minColOf ps))
    (maxRowOf ps - minRowOf ps + 1) (maxColOf ps - minColOf ps + 1)
    [] [] none

/-- The per-label loop of `_parse_grid`: skip labels with no occurrences
(unreachable for labels collected from the grid), raise on a label whose
occurrence count differs from its bounding-rectangle area, otherwise emit
the panel node. -/
def buildPanels (lines : List (List Char)) : List Char → Except LayErr (List LayoutNode)
  | [] => .ok []
  | label :: rest =>
    let ps := occupied lines label
    if ps.isEmpty then buildPanels lines rest
    else if ps.length ≠ rectArea ps then
      .error (.nonRectangular label ps.length (rectArea ps))
    else
      match buildPanels lines rest with
      | .error e => .error e
      | .ok out => .ok (mkPanelNode lines label :: out)

/-- Metadata of the transient `GRID` node. -/
def gridMeta (nrows ncols : Nat) : Metadata :=
  [("nrows", .nat nrows), ("ncols", .nat ncols),
   ("row_ratios", .numList (List.replicate nrows Frac.one)),
   ("col_ratios", .numList (List.replicate ncols Frac.one))]

/-- `_parse_grid` applied to an already-cleaned grid. -/
def parse_grid_lines (sectionChars : List Char) (lines : List (List Char)) :
    Except LayErr LayoutNode :=
  if lines.isEmpty then .error .emptyGrid
  else
    let nrows := lines.length
    let ncols := (lines.headD []).length
    if ncols = 0 then .error .zeroCols
    else
      match buildPanels lines (sortedLabels sectionChars lines) with
      | .error e => .error e
      | .ok panels =>
        .ok (.mk .grid "grid" none none none 1 1 panels (gridMeta nrows ncols) none)

/-- `_parse_grid`. -/
def parse_grid (sectionChars : List Char) (code : List Char) : Except LayErr LayoutNode :=
  parse_grid_lines sectionChars (clean_grid_code code)

/-! ## Section extractor -/

/-- The inner bracket-depth loop of `_extract_sections`: from position `j`
with open-bracket count `bc`, return the index one past the bracket that
closes the construct, or `none` when the input ends first.  `fuel` exceeds
the number of remaining characters, so it never runs out. -/
def scanBracket (code : List Char) : Nat → Nat → Nat → Option Nat
  | 0, j, bc => if bc = 0 then some j else none
  | fuel + 1, j, bc =>
    if bc = 0 then some j
    else if h : j < code.length then
      let c := code.get ⟨j, h⟩
      scanBracket code fuel (j + 1) (if c == '[' then bc + 1 else if c == ']' then bc - 1 else bc)
    else none

/-- The main loop of `_extract_sections`.  `fuel` bounds the number of loop
iterations (each iteration strictly decreases `code.length - i`), and the
top-level wrapper supplies enough of it. -/
def extractSectionsAux (fuel : Nat) (code : List Char) (i : Nat)
    (sections : List (String × List Char)) (count : Nat) :
    List Char × List (String × List Char) :=
  match fuel with
  | 0 => (code, sections)
  | fuel + 1 =>
    if h : i < code.length then
      if code.get ⟨i, h⟩ == '[' then
        match charFind code ':' i with
        | none => extractSectionsAux fuel code (i + 1) sections count
        | some colonIdx =>
          let name := (code.drop (i + 1)).take (colonIdx - (i + 1))
          if name.isEmpty || !(name.headD ' ').isAlpha then
            extractSectionsAux fuel code (i + 1) sections count
          else
            match scanBracket code (code.length + 1) (colonIdx + 1) 1 with
            | none => extractSectionsAux fuel code (i + 1) sections count
            | some j =>
              let content := (code.drop (colonIdx + 1)).take (j - 1 - (colonIdx + 1))
              let sections2 := assocUpsert sections (String.mk name) content
              let ph := Char.ofNat (0xE000 + (count + 1) - 1)
              let code2 := code.take i ++ ph :: code.drop j
              extractSectionsAux fuel code2 (i + 1) sections2 (count + 1)
      else extractSectionsAux fuel code (i + 1) sections count
    else (code, sections)

/-- `_extract_sections`. -/
def extract_sections (code : List Char) : List Char × List (String × List Char) :=
  extractSectionsAux (code.length + 1) code 0 [] 0

/-- The placeholder characters of the recorded sections, in discovery
order (`section_map` keys). -/
def sectionCharsOf (sections : List (String × List Char)) : List Char :=
  (enumFromN 0 sections).map (fun p => Char.ofNat (0xE000 + p.1))

/-- The `section_map` dict: placeholder character (as the one-character
string it compares against node ids) to section name. -/
def sectionMapOf (sections : List (String × List Char)) : List (String × String) :=
  (enumFromN 0 sections).map (fun p => ((Char.ofNat (0xE000 + p.1)).toString, p.2.1))

/-! ## Sub-panel extractor -/

/-- The anchored `GRID_SIZE_PATTERN` `^\d+x\d+$`. -/
def gridSizeMatch (items : List Char) : Option (Nat × Nat) :=
  let ds := items.takeWhile Char.isDigit
  match items.drop ds.length with
  | 'x' :: rest =>
    if ds.isEmpty || rest.isEmpty || !rest.all Char.isDigit then none
    else some (natOfDigits ds, natOfDigits rest)
  | _ => none

/-- `process_bracket`: interpret the bracket content of `letter[items]`. -/
def mkSubSpec (panel : Char) (items : List Char) : SubSpec :=
  match gridSizeMatch items with
  | some (r, c) =>
    .grid r c ((List.range (r * c)).map (fun i => panel.toString ++ "." ++ toString i))
  | none =>
    let its := (splitOnChar ',' items).map stripChars
    .list (its.map (fun it => panel.toString ++ "." ++ String.mk it)) (its.map String.mk)

/-- Left-to-right, non-overlapping substitution of
`SUB_PANEL_BRACKET_PATTERN` (`[a-zA-Z]\[[^\]]+\]`), replacing each match by
its letter and recording the descriptor.  `fuel` exceeds the input length. -/
def subPanelScanAux (fuel : Nat) (code : List Char)
    (subs : List (Char × SubSpec)) : List Char × List (Char × SubSpec) :=
  match fuel, code with
  | 0, _ => ([], subs)
  | _, [] => ([], subs)
  | fuel + 1, c :: rest =>
    if c.isAlpha then
      match rest with
      | '[' :: rest2 =>
        let items := rest2.takeWhile (fun ch => !(ch == ']'))
        if items.isEmpty || (rest2.drop items.length).isEmpty then
          let (code2, subs2) := subPanelScanAux fuel rest subs
          (c :: code2, subs2)
        else
          let (code2, subs2) :=
            subPanelScanAux fuel (rest2.drop (items.length + 1))
              (assocUpsert subs c (mkSubSpec c items))
          (c :: code2, subs2)
      | _ =>
        let (code2, subs2) := subPanelScanAux fuel rest subs
        (c :: code2, subs2)
    else
      let (code2, subs2) := subPanelScanAux fuel rest subs
      (c :: code2, subs2)

/-- `_extract_sub_panels`. -/
def extract_sub_panels (code : List Char) : List Char × List (Char × SubSpec) :=
  subPanelScanAux (code.length + 1) code []

/-! ## Inset extractor -/

def isNumChar (c : Char) : Bool := c.isDigit || c == '.'

/-- One `[0-9.]+` field (maximal, must be nonempty). -/
def matchNumField (l : List Char) : Option (List Char × List Char) :=
  let f := l.takeWhile isNumChar
  if f.isEmpty then none else some (f, l.drop f.length)

/-- One `\{f,f,f,f\}` group of `MULTI_INSET_PATTERN`, returning the four
raw fields and the remainder after the closing brace. -/
def matchBraceGroup (l : List Char) :
    Option ((List Char × List Char × List Char × List Char) × List Char) :=
  match l with
  | '{' :: r0 =>
    match matchNumField r0 with
    | none => none
    | some (f1, r1) =>
      match r1 with
      | ',' :: r1b =>
        match matchNumField r1b with
        | none => none
        | some (f2, r2) =>
          match r2 with
          | ',' :: r2b =>
            match matchNumField r2b with
            | none => none
            | some (f3, r3) =>
              match r3 with
              | ',' :: r3b =>
                match matchNumField r3b with
                | none => none
                | some (f4, r4) =>
                  match r4 with
                  | '}' :: r5 => some ((f1, f2, f3, f4), r5)
                  | _ => none
              | _ => none
          | _ => none
      | _ => none
  | _ => none

/-- The greedy `(?:\{...\})+` repetition: as many consecutive well-formed
groups as possible. -/
def takeBraceGroups (fuel : Nat) (l : List Char) :
    List (List Char × List Char × List Char × List Char) × List Char :=
  match fuel with
  | 0 => ([], l)
  | fuel + 1 =>
    match matchBraceGroup l with
    | none => ([], l)
    | some (g, rest) =>
      let (gs, r) := takeBraceGroups fuel rest
      (g :: gs, r)

/-- `float(...)` on a raw field; the error models the `ValueError` that
would escape `process_multi_inset`. -/
def fracOfField (f : List Char) : Except LayErr Frac :=
  match parseFloat f with
  | none => .error (.badFloat f)
  | some q => .ok q

/-- The `finditer` loop of `process_multi_inset`: one absolute descriptor
per group, in order. -/
def groupSpecs : List (List Char × List Char × List Char × List Char) →
    Except LayErr (List InsetSpec)
  | [] => .ok []
  | (f1, f2, f3, f4) :: rest =>
    match fracOfField f1 with
    | .error e => .error e
    | .ok x =>
      match fracOfField f2 with
      | .error e => .error e
      | .ok y =>
        match fracOfField f3 with
        | .error e => .error e
        | .ok w =>
          match fracOfField f4 with
          | .error e => .error e
          | .ok h =>
            match groupSpecs rest with
            | .error e => .error e
            | .ok out => .ok (.absolute x y w h :: out)

/-- Append a batch of descriptors for `k` one at a time
(`insets[panel].append(...)` per group). -/
def insetsAppendAll (d : List (Char × List InsetSpec)) (k : Char) :
    List InsetSpec → List (Char × List InsetSpec)
  | [] => d
  | s :: ss => insetsAppendAll (assocAppend d k s) k ss

/-- Substitution pass of `MULTI_INSET_PATTERN`. -/
def multiInsetScanAux (fuel : Nat) (code : List Char)
    (insets : List (Char × List InsetSpec)) :
    Except LayErr (List Char × List (Char × List InsetSpec)) :=
  match fuel, code with
  | 0, _ => .ok ([], insets)
  | _, [] => .ok ([], insets)
  | fuel + 1, c :: rest =>
    if c.isAlpha then
      match takeBraceGroups (rest.length + 1) rest with
      | ([], _) =>
        match multiInsetScanAux fuel rest insets with
        | .error e => .error e
        | .ok (code2, ins2) => .ok (c :: code2, ins2)
      | (gs, suffix) =>
        match groupSpecs gs with
        | .error e => .error e
        | .ok specs =>
          match multiInsetScanAux fuel suffix (insetsAppendAll insets c specs) with
          | .error e => .error e
          | .ok (code2, ins2) => .ok (c :: code2, ins2)
    else
      match multiInsetScanAux fuel rest insets with
      | .error e => .error e
      | .ok (code2, ins2) => .ok (c :: code2, ins2)

/-- Whether the single-inset `INSET_ABSOLUTE_PATTERN` matches anywhere.
The compatibility pass feeds its matches to `process_multi_inset`, whose
group lookup does not exist in that pattern, so a match means an error. -/
def absoluteMatchExists (fuel : Nat) (code : List Char) : Bool :=
  match fuel, code with
  | 0, _ => false
  | _, [] => false
  | fuel + 1, c :: rest =>
    if c.isAlpha then
      match matchBraceGroup rest with
      | some _ => true
      | none => absoluteMatchExists fuel rest
    else absoluteMatchExists fuel rest

/-- Substitution pass of `INSET_GRID_PATTERN` (`[a-zA-Z]<[^>]+>`). -/
def gridInsetScanAux (fuel : Nat) (code : List Char)
    (insets : List (Char × List InsetSpec)) :
    List Char × List (Char × List InsetSpec) :=
  match fuel, code with
  | 0, _ => ([], insets)
  | _, [] => ([], insets)
  | fuel + 1, c :: rest =>
    if c.isAlpha then
      match rest with
      | '<' :: rest2 =>
        let content := rest2.takeWhile (fun ch => !(ch == '>'))
        if content.isEmpty || (rest2.drop content.length).isEmpty then
          let (code2, ins2) := gridInsetScanAux fuel rest insets
          (c :: code2, ins2)
        else
          let (code2, ins2) :=
            gridInsetScanAux fuel (rest2.drop (content.length + 1))
              (assocAppend insets c (.grid content))
          (c :: code2, ins2)
      | _ =>
        let (code2, ins2) := gridInsetScanAux fuel rest insets
        (c :: code2, ins2)
    else
      let (code2, ins2) := gridInsetScanAux fuel rest insets
      (c :: code2, ins2)

/-- `_extract_insets`: the multi-inset pass, then the (vacuous-or-failing)
single-inset compatibility pass, then the grid-inset pass. -/
def extract_insets (code : List Char) :
    Except LayErr (List Char × List (Char × List InsetSpec)) :=
  match multiInsetScanAux (code.length + 1) code [] with
  | .error e => .error e
  | .ok (code1, ins1) =>
    if absoluteMatchExists (code1.length + 1) code1 then .error .noSuchGroup
    else .ok (gridInsetScanAux (code1.length + 1) code1 ins1)

/-! ## Tree builder: attaching sub-panels, insets, sections -/

/-- Python dict lookup helpers on a node's metadata. -/
def metaGetNat (md : Metadata) (k : String) (dflt : Nat) : Nat :=
  match assocGet md k with
  | some (.nat n) => n
  | _ => dflt

def metaGetRatios (md : Metadata) (k : String) : List Frac :=
  match assocGet md k with
  | some (.numList l) => l
  | _ => [Frac.one]

/-- Python `label.split('.')[-1]`. -/
def lastDotComponent (s : String) : String :=
  match (splitOnChar '.' s.data).getLast? with
  | none => s
  | some l => String.mk l

/-- One synthesized sub-panel node of a grid spec
(`row = idx // ncols`, `col = idx % ncols`). -/
def subGridChild (panelId : String) (ncols : Nat) (p : Nat × String) : LayoutNode :=
  .mk .subPanel p.2 (some (lastDotComponent p.2)) (some (p.1 / ncols)) (some (p.1 % ncols))
    1 1 [] [] (some panelId)

/-- One synthesized sub-panel node of a list spec (`row = 0`, `col = i`). -/
def subListChild (panelId : String) (p : Nat × (String × String)) : LayoutNode :=
  .mk .subPanel p.2.1 (some p.2.2) (some 0) (some p.1) 1 1 [] [] (some panelId)

/-- The in-place mutation `_attach_sub_panels_to_node` performs on a found
panel node: append the synthesized sub-panel children and store the
declared grid shape in the metadata. -/
def applySubSpec (panelId : String) (spec : SubSpec) (p : LayoutNode) : LayoutNode :=
  match spec with
  | .grid nr nc labels =>
    let p2 := p.withChildren (p.children ++ (enumFromN 0 labels).map (subGridChild panelId nc))
    p2.withMetadata (assocUpsert p2.metadata "sub_panel_grid" (.shape nr nc))
  | .list labels items =>
    let p2 := p.withChildren
      (p.children ++ (enumFromN 0 (labels.zip items)).map (subListChild panelId))
    p2.withMetadata (assocUpsert p2.metadata "sub_panel_grid" (.shape 1 labels.length))

/-- `_attach_sub_panels_to_node`: for each descriptor, mutate the first
node found by id anywhere under `n`, silently skipping descriptors whose
owner is not found. -/
def attach_sub_panels_to_node (n : LayoutNode) : List (Char × SubSpec) → LayoutNode
  | [] => n
  | (letterP, spec) :: rest =>
    match n.updateFirst letterP.toString (applySubSpec letterP.toString spec) with
    | none => attach_sub_panels_to_node n rest
    | some n2 => attach_sub_panels_to_node n2 rest

def insetLabelStr (i : Nat) : String := "Inset " ++ toString (i + 1)

/-- The inset node built for descriptor index `p.1` of panel `panelId`;
grid insets recursively parse their stored code with `_parse_grid`. -/
def insetNode (sectionChars : List Char) (panelId : String) (p : Nat × InsetSpec) :
    Except LayErr LayoutNode :=
  let insetId := panelId ++ "_inset_" ++ toString p.1
  match p.2 with
  | .absolute x y w h =>
    .ok (.mk .inset insetId (some (insetLabelStr p.1)) none none 1 1 []
      [("type", .str "absolute"), ("bounds", .bounds x y w h)] (some panelId))
  | .grid gcode =>
    match parse_grid sectionChars gcode with
    | .error e => .error e
    | .ok g =>
      let md0 : Metadata := [("type", .str "grid"), ("grid_code", .str (String.mk gcode))]
      let md := assocUpsert (assocUpsert md0 "nrows" (.nat (metaGetNat g.metadata "nrows" 1)))
        "ncols" (.nat (metaGetNat g.metadata "ncols" 1))
      .ok (.mk .inset insetId (some (insetLabelStr p.1)) none none 1 1 g.children md
        (some panelId))

/-- The inset-node loop for one panel's descriptor list. -/
def insetChildren (sectionChars : List Char) (panelId : String) :
    List (Nat × InsetSpec) → Except LayErr (List LayoutNode)
  | [] => .ok []
  | p :: rest =>
    match insetNode sectionChars panelId p with
    | .error e => .error e
    | .ok nd =>
      match insetChildren sectionChars panelId rest with
      | .error e => .error e
      | .ok out => .ok (nd :: out)

/-- `_attach_insets_to_node`: descriptors whose owner is not found anywhere
under `n` are skipped without even parsing their content. -/
def attach_insets_to_node (sectionChars : List Char) (n : LayoutNode) :
    List (Char × List InsetSpec) → Except LayErr LayoutNode
  | [] => .ok n
  | (letterP, specs) :: rest =>
    match n.get_descendant letterP.toString with
    | none => attach_insets_to_node sectionChars n rest
    | some _ =>
      match insetChildren sectionChars letterP.toString (enumFromN 0 specs) with
      | .error e => .error e
      | .ok newCh =>
        match n.updateFirst letterP.toString (fun p => p.withChildren (p.children ++ newCh)) with
        | none => attach_insets_to_node sectionChars n rest
        | some n2 => attach_insets_to_node sectionChars n2 rest

/-- Python `str.title()` (ASCII behavior). -/
def titleCaseAux : Bool → List Char → List Char
  | _, [] => []
  | prevAlpha, c :: rest =>
    if c.isAlpha then
      (if prevAlpha then c.toLower else c.toUpper) :: titleCaseAux true rest
    else c :: titleCaseAux false rest

/-- `section_name.replace('_', ' ').title()`. -/
def sectionLabel (name : String) : String :=
  String.mk (titleCaseAux false (name.data.map (fun c => if c == '_' then ' ' else c)))

/-- `_create_section_node`: the section content passes through sub-panel
and inset extraction and the grid parser, but crucially not through
`_extract_sections` again. -/
def create_section_node (sectionChars : List Char) (name : String) (content : List Char) :
    Except LayErr LayoutNode :=
  let (code1, subs) := extract_sub_panels content
  match extract_insets code1 with
  | .error e => .error e
  | .ok (code2, insets) =>
    match parse_grid sectionChars code2 with
    | .error e => .error e
    | .ok sgrid =>
      let snode : LayoutNode :=
        .mk .sec name (some (sectionLabel name)) none none 1 1 sgrid.children
          [("nrows", .nat (metaGetNat sgrid.metadata "nrows" 1)),
           ("ncols", .nat (metaGetNat sgrid.metadata "ncols" 1))] none
      attach_insets_to_node sectionChars (attach_sub_panels_to_node snode subs) insets

/-- The root-assembly loop of `parse` step 5: grid children whose id is a
section placeholder are replaced by the recursively built section node,
which inherits the placeholder's position. -/
def buildRootChildren (sectionChars : List Char) (smap : List (String × String))
    (sections : List (String × List Char)) :
    List LayoutNode → Except LayErr (List LayoutNode)
  | [] => .ok []
  | child :: rest =>
    match assocGet smap child.id with
    | some sname =>
      match assocGet sections sname with
      | none => .error (.keyMissing sname)
      | some content =>
        match create_section_node sectionChars sname content with
        | .error e => .error e
        | .ok snode =>
          match buildRootChildren sectionChars smap sections rest with
          | .error e => .error e
          | .ok out => .ok (snode.withPosOf child :: out)
    | none =>
      match buildRootChildren sectionChars smap sections rest with
      | .error e => .error e
      | .ok out => .ok (child :: out)

/-! ## Validator -/

/-- The validator's configuration flags (constructor defaults of
`LayoutTreeValidator`). -/
structure LayoutTreeValidator where
  check_overlaps : Bool
  check_gaps : Bool
  check_connectivity : Bool

def defaultValidator : LayoutTreeValidator := ⟨true, false, true⟩

/-- `_panels_overlap`.  The source reads `p.col` unguarded after checking
`p.row is not None`; every panel the validator compares carries a column
whenever it carries a row, and the embedding reads a default of `0` on
that (otherwise-crashing) path. -/
def panels_overlap (p1 p2 : LayoutNode) : Bool :=
  match p1.row, p2.row with
  | some r1, some r2 =>
    let c1 := p1.col.getD 0
    let c2 := p2.col.getD 0
    (!(decide (r1 + p1.rowspan ≤ r2) || decide (r2 + p2.rowspan ≤ r1))) &&
    (!(decide (c1 + p1.colspan ≤ c2) || decide (c2 + p2.colspan ≤ c1)))
  | _, _ => false

/-- The flattened panel collection `_check_overlaps` builds: the root's
`PANEL` children plus all children of the root's `SECTION` children. -/
def overlapCandidatesAux : List LayoutNode → List LayoutNode
  | [] => []
  | c :: cs =>
    (if c.node_type = .panel then [c]
     else if c.node_type = .sec then c.children
     else []) ++ overlapCandidatesAux cs

def overlapCandidates (t : LayoutTree) : List LayoutNode :=
  overlapCandidatesAux t.root.children

/-- The ordered-pair loop of `_check_overlaps`. -/
def overlapDiags : List LayoutNode → List Diag
  | [] => []
  | p :: ps =>
    ps.filterMap (fun q => if panels_overlap p q then some (.overlap p.id q.id) else none)
      ++ overlapDiags ps

def check_overlaps (t : LayoutTree) : List Diag := overlapDiags (overlapCandidates t)

/-- The panels `_check_gaps` marks (note: inside sections it keeps only
`PANEL` children, unlike `_check_overlaps`). -/
def gapPanelsAux : List LayoutNode → List LayoutNode
  | [] => []
  | c :: cs =>
    (if c.node_type = .panel then [c]
     else if c.node_type = .sec then c.children.filter (fun p => p.node_type == .panel)
     else []) ++ gapPanelsAux cs

def gapPanels (t : LayoutTree) : List LayoutNode := gapPanelsAux t.root.children

/-- Whether some marked panel covers cell `(r, c)` (the functional reading
of the boolean occupancy grid). -/
def cellCovered (ps : List LayoutNode) (r c : Nat) : Bool :=
  ps.any (fun p =>
    match p.row with
    | none => false
    | some pr =>
      decide (pr ≤ r) && decide (r < pr + p.rowspan) &&
      decide (p.col.getD 0 ≤ c) && decide (c < p.col.getD 0 + p.colspan))

/-- All grid cells in row-major order. -/
def cellList (nr nc : Nat) : List (Nat × Nat) :=
  (List.range nr).foldr (fun r acc => ((List.range nc).map (fun c => (r, c))) ++ acc) []

/-- `_check_gaps` (reports the first five unassigned cells in one
diagnostic, as the source formats `unassigned[:5]`). -/
def check_gaps (t : LayoutTree) : List Diag :=
  let un := (cellList t.nrows t.ncols).filter
    (fun rc => !cellCovered (gapPanels t) rc.1 rc.2)
  if un.isEmpty then [] else [.gaps (un.take 5)]

/-- The duplicate-id loop (`seen` set). -/
def dupDiagsAux (seen : List String) : List String → List Diag
  | [] => []
  | pid :: rest =>
    (if seen.contains pid then [.dupId pid] else []) ++ dupDiagsAux (pid :: seen) rest

def shapeGetNRows (md : Metadata) (dflt : Nat) : Nat :=
  match assocGet md "sub_panel_grid" with
  | some (.shape r _) => r
  | _ => dflt

def shapeGetNCols (md : Metadata) (dflt : Nat) : Nat :=
  match assocGet md "sub_panel_grid" with
  | some (.shape _ c) => c
  | _ => dflt

/-- The duplicate-position loop of `_validate_sub_panels`. -/
def dupPosDiags (i : String) (seen : List (Option Nat × Option Nat)) :
    List LayoutNode → List Diag
  | [] => []
  | sp :: rest =>
    (if seen.contains (sp.row, sp.col) then [.subPanelDup i sp.row sp.col] else [])
      ++ dupPosDiags i ((sp.row, sp.col) :: seen) rest

mutual

/-- The recursive `check_node` of `_validate_sub_panels`. -/
def subPanelCheckNode (n : LayoutNode) : List Diag :=
  match n with
  | .mk t i _ _ _ _ _ ch md _ =>
    (if (t == .panel) && !ch.isEmpty then
      let sps := ch.filter (fun c => c.node_type == .subPanel)
      if !sps.isEmpty then
        let expected := shapeGetNRows md 1 * shapeGetNCols md sps.length
        (if sps.length > expected then [.subPanelOverflow i sps.length expected] else [])
          ++ dupPosDiags i [] sps
      else []
    else []) ++ subPanelCheckList ch

def subPanelCheckList : List LayoutNode → List Diag
  | [] => []
  | c :: cs => subPanelCheckNode c ++ subPanelCheckList cs

end

def metaTypeOf (md : Metadata) : Option String :=
  match assocGet md "type" with
  | some (.str s) => some s
  | _ => none

def boundsOf (md : Metadata) : Frac × Frac × Frac × Frac :=
  match assocGet md "bounds" with
  | some (.bounds x y w h) => (x, y, w, h)
  | _ => (Frac.zero, Frac.zero, Frac.zero, Frac.zero)

/-- The per-inset bound checks of `_validate_insets`, in source order:
position in `[0,1]`, size in `(0,1]`, then overflow `x+w>1 or y+h>1`. -/
def insetBoundDiags (i : String) : List LayoutNode → List Diag
  | [] => []
  | ins :: rest =>
    (if metaTypeOf ins.metadata == some "absolute" then
      let b := boundsOf ins.metadata
      let x := b.1
      let y := b.2.1
      let w := b.2.2.1
      let h := b.2.2.2
      (if !(Frac.le Frac.zero x && Frac.le x Frac.one
            && Frac.le Frac.zero y && Frac.le y Frac.one)
       then [.insetPos i x y] else [])
      ++ (if !(Frac.lt Frac.zero w && Frac.le w Frac.one
               && Frac.lt Frac.zero h && Frac.le h Frac.one)
          then [.insetSize i w h] else [])
      ++ (if Frac.lt Frac.one (x.add w) || Frac.lt Frac.one (y.add h)
          then [.insetOut i] else [])
    else []) ++ insetBoundDiags i rest

mutual

/-- The recursive `check_node` of `_validate_insets`. -/
def insetCheckNode (n : LayoutNode) : List Diag :=
  match n with
  | .mk t i _ _ _ _ _ ch _ _ =>
    (if t = .panel then insetBoundDiags i (ch.filter (fun c => c.node_type == .inset))
     else []) ++ insetCheckList ch

def insetCheckList : List LayoutNode → List Diag
  | [] => []
  | c :: cs => insetCheckNode c ++ insetCheckList cs

end

/-- `LayoutTreeValidator.validate`, threaded through the tree value it only
reads: the returned tree is the one that was passed in (the source never
assigns to the tree or any node while validating), and the second component
is the accumulated diagnostic list, in source order. -/
def validateM (v : LayoutTreeValidator) (tree : LayoutTree) : LayoutTree × List Diag :=
  let e1 := (if tree.root.children.isEmpty then [Diag.noPanels] else [])
    ++ (if tree.nrows = 0 ∨ tree.ncols = 0 then [Diag.badDims tree.nrows tree.ncols] else [])
  let e2 := dupDiagsAux [] tree.get_all_panel_ids
  let e3 := if v.check_overlaps then check_overlaps tree else []
  let e4 := if v.check_gaps then check_gaps tree else []
  let e5 := subPanelCheckNode tree.root
  let e6 := insetCheckNode tree.root
  (tree, e1 ++ e2 ++ e3 ++ e4 ++ e5 ++ e6)

/-- `validate(tree) -> list of diagnostics`. -/
def LayoutTreeValidator.validate (v : LayoutTreeValidator) (tree : LayoutTree) : List Diag :=
  (validateM v tree).2

/-! ## The top-level `parse` -/

/-- The state of `parse` just before step 6's inset attachment: the
section placeholders are resolved, the grid is parsed into `gridNode`, and
the sub-panel descriptors are already attached into `root2`.  `parse` is
factored through this value so that theorems can speak about the tree the
inset descriptors are looked up in. -/
structure ParseMid where
  sectionChars : List Char
  insets : List (Char × List InsetSpec)
  gridNode : LayoutNode
  root2 : LayoutNode
  raw : List Char

/-- Steps 1-6a of `LayoutCodeParser.parse` (empty check, the three
extractions, grid parsing, root assembly, sub-panel attachment). -/
def parseMid (layout_code : String) : Except LayErr ParseMid :=
  let codeL := layout_code.data
  if codeL.isEmpty || (stripChars codeL).isEmpty then .error .emptyCode
  else
    let raw := stripChars codeL
    let (code0, sections) := extract_sections raw
    let sectionChars := sectionCharsOf sections
    let smap := sectionMapOf sections
    let (code1, subs) := extract_sub_panels code0
    match extract_insets code1 with
    | .error e => .error e
    | .ok (code2, insets) =>
      match parse_grid sectionChars code2 with
      | .error e => .error e
      | .ok gridNode =>
        match buildRootChildren sectionChars smap sections gridNode.children with
        | .error e => .error e
        | .ok rootCh =>
          let root : LayoutNode := .mk .root "root" none none none 1 1 rootCh [] none
          .ok ⟨sectionChars, insets, gridNode, attach_sub_panels_to_node root subs, raw⟩

/-- `LayoutCodeParser.parse` with flags `validate` and `strict_mode`
(source defaults: `validate = true`, `strict = false`). -/
def parse (validate strict : Bool) (layout_code : String) : Except LayErr LayoutTree :=
  match parseMid layout_code with
  | .error e => .error e
  | .ok m =>
    match attach_insets_to_node m.sectionChars m.root2 m.insets with
    | .error e => .error e
    | .ok root3 =>
      let tree : LayoutTree :=
        ⟨root3, metaGetNat m.gridNode.metadata "nrows" 0,
         metaGetNat m.gridNode.metadata "ncols" 0,
         metaGetRatios m.gridNode.metadata "row_ratios",
         metaGetRatios m.gridNode.metadata "col_ratios",
         m.raw, "1.0"⟩
      if validate then
        let errors := LayoutTreeValidator.validate defaultValidator tree
        if errors.isEmpty then .ok tree
        else if strict then .error (.validationFailed errors)
        else
          .ok ⟨tree.root.withMetadata
              (assocUpsert tree.root.metadata "validation_warnings" (.diags errors)),
            tree.nrows, tree.ncols, tree.row_ratios, tree.col_ratios,
            tree.raw_code, tree.version⟩
      else .ok tree

/-! ## Concrete trees used by the theorems -/

/-- Default node for `headD` observations. -/
def nullNode : LayoutNode := .mk .root "" none none none 1 1 [] [] none

/-- Sibling panels at `(0,0,2,2)` and `(1,1,2,2)` (the overlapping pair of
the specification's test). -/
def exPanelA : LayoutNode := .mk .panel "a" none (some 0) (some 0) 2 2 [] [] none

def exPanelB : LayoutNode := .mk .panel "b" none (some 1) (some 1) 2 2 [] [] none

def exOverlapTree : LayoutTree :=
  ⟨.mk .root "root" none none none 1 1 [exPanelA, exPanelB] [] none, 3, 3, [], [], [], "1.0"⟩

/-- Sibling panels at `(0,0,1,1)` and `(0,1,1,1)` (the non-overlapping pair
of the specification's test). -/
def exDisjointTree : LayoutTree :=
  ⟨.mk .root "root" none none none 1 1
    [.mk .panel "a" none (some 0) (some 0) 1 1 [] [] none,
     .mk .panel "b" none (some 0) (some 1) 1 1 [] [] none] [] none, 1, 2, [], [], [], "1.0"⟩

/-- A section nested inside a section, whose two panel children overlap. -/
def exInnerSection : LayoutNode := .mk .sec "t" none (some 0) (some 0) 1 1 [exPanelA, exPanelB] [] none

def exOuterSection : LayoutNode := .mk .sec "s" none (some 0) (some 0) 1 1 [exInnerSection] [] none

def exNestedTree : LayoutTree :=
  ⟨.mk .root "root" none none none 1 1 [exOuterSection] [] none, 3, 3, [], [], [], "1.0"⟩

/-- A small already-valid tree (a 2 by 2 grid of unit panels). -/
def exValidTree : LayoutTree :=
  ⟨.mk .root "root" none none none 1 1
    [.mk .panel "a" none (some 0) (some 0) 1 1 [] [] none,
     .mk .panel "b" none (some 0) (some 1) 1 1 [] [] none,
     .mk .panel "c" none (some 1) (some 0) 1 1 [] [] none,
     .mk .panel "d" none (some 1) (some 1) 1 1 [] [] none] [] none, 2, 2, [], [], [], "1.0"⟩

/-- The input of the orphaned-descriptor scenario: the absolute-inset
descriptor for `b` is recorded before the grid-inset descriptor for `a`,
but `b` only enters the tree as a child of `a`'s grid inset, which is
attached after `b`'s descriptor has already been looked up and dropped. -/
def orphanInput : String := "a<b{0.2,0.2,0.3,0.3}c/de>f/gh"

end FigCombo

namespace FigCombo

/-! ## General-purpose lemmas -/

/-- Structural induction for the nested inductive `LayoutNode`. -/
theorem LayoutNode.inductionOn (P : LayoutNode → Prop)
    (h : ∀ t i l r c rs cs ch md p, (∀ x ∈ ch, P x) → P (.mk t i l r c rs cs ch md p)) :
    ∀ n, P n := by
  have key : ∀ k n, sizeOf n ≤ k → P n := by
    intro k
    induction k with
    | zero =>
      intro n hn
      cases n with
      | mk t i l r c rs cs ch md p =>
        simp only [LayoutNode.mk.sizeOf_spec] at hn
        omega
    | succ k ih =>
      intro n hn
      cases n with
      | mk t i l r c rs cs ch md p =>
        apply h
        intro x hx
        apply ih
        have hlt := List.sizeOf_lt_of_mem hx
        simp only [LayoutNode.mk.sizeOf_spec] at hn
        omega
  intro n
  exact key (sizeOf n) n le_rfl

theorem Char.toString_inj {a b : Char} (h : a.toString = b.toString) : a = b := by
  have := congrArg String.data h
  simpa [Char.toString] using this

theorem filter_beq_of_nodup [DecidableEq α] (l : List α) (a : α)
    (h : l.Nodup) (ha : a ∈ l) : l.filter (fun x => x == a) = [a] := by
  induction l with
  | nil => cases ha
  | cons x xs ih =>
    have hnd := List.nodup_cons.mp h
    by_cases hxa : x = a
    · subst hxa
      have hx : xs.filter (fun y => y == x) = [] := by
        rw [List.filter_eq_nil_iff]
        intro y hy
        simp only [beq_iff_eq]
        intro he
        exact hnd.1 (he ▸ hy)
      simp [List.filter_cons, hx]
    · have hmem : a ∈ xs := by
        rcases List.mem_cons.mp ha with h1 | h2
        · exact absurd h1.symm hxa
        · exact h2
      have hxs := ih hnd.2 hmem
      have hxne : ¬(x == a) = true := by simpa using hxa
      simp [List.filter_cons, hxne, hxs]

/-! ## C2: serializer round trip -/

theorem NodeType.ofValue_value : ∀ t : NodeType, NodeType.ofValue t.value = some t := by
  intro t
  cases t <;> rfl

theorem from_dict_to_dict (n : LayoutNode) : LayoutNode.from_dict n.to_dict = some n := by
  induction n using LayoutNode.inductionOn with
  | h t i l r c rs cs ch md p ih =>
    have hch : LayoutNode.fromDictList (LayoutNode.toDictList ch) = some ch := by
      induction ch with
      | nil => rfl
      | cons x xs ihx =>
        have hx := ih x (by simp)
        have hxs := ihx (fun z hz => ih z (by simp [hz]))
        simp only [LayoutNode.toDictList, LayoutNode.fromDictList, hx, hxs]
    simp only [LayoutNode.to_dict, LayoutNode.from_dict, NodeType.ofValue_value, hch]

theorem tree_from_dict_to_dict (t : LayoutTree) : LayoutTree.from_dict t.to_dict = some t := by
  cases t with
  | mk root nrows ncols rr cr raw v =>
    simp [LayoutTree.to_dict, LayoutTree.from_dict, from_dict_to_dict]

/-! ## C10: `get_panel` as depth-first search -/

theorem getDescendantList_eq_find (i : String) :
    ∀ l : List LayoutNode,
      (∀ x ∈ l, x.get_descendant i = x.preorder.find? (fun m => m.id == i)) →
      LayoutNode.getDescendantList l i
        = (LayoutNode.preorderList l).find? (fun m => m.id == i) := by
  intro l hl
  induction l with
  | nil => rfl
  | cons x xs ihx =>
    rw [LayoutNode.getDescendantList, LayoutNode.preorderList, List.find?_append,
      ← hl x (by simp)]
    cases hx : x.get_descendant i with
    | some r => rfl
    | none =>
      simp only [Option.none_or]
      exact ihx (fun z hz => hl z (by simp [hz]))

theorem get_descendant_eq_find (n : LayoutNode) (i : String) :
    n.get_descendant i = n.preorder.find? (fun m => m.id == i) := by
  induction n using LayoutNode.inductionOn with
  | h t nid l r c rs cs ch md p ih =>
    simp only [LayoutNode.get_descendant, LayoutNode.preorder, List.find?_cons, LayoutNode.id]
    cases hid : (nid == i) with
    | true => simp [hid]
    | false => simpa [hid] using getDescendantList_eq_find i ch ih

/-! ## C1: grid-parser lemmas -/

theorem occRow_ne_nil (L : Char) (r : Nat) :
    ∀ (c0 : Nat) (line : List Char), L ∈ line → occRow L r c0 line ≠ [] := by
  intro c0 line
  induction line generalizing c0 with
  | nil => intro h; cases h
  | cons ch rest ih =>
    intro hmem hnil
    simp only [occRow] at hnil
    rcases List.append_eq_nil.mp hnil with ⟨h1, h2⟩
    rcases List.mem_cons.mp hmem with rfl | hr
    · simp at h1
    · exact ih (c0 + 1) hr h2

theorem occFrom_ne_nil (L : Char) :
    ∀ (r : Nat) (lines : List (List Char)), L ∈ gridChars lines → occFrom L r lines ≠ [] := by
  intro r lines
  induction lines generalizing r with
  | nil => intro h; cases h
  | cons line rest ih =>
    intro hmem hnil
    simp only [occFrom] at hnil
    rcases List.append_eq_nil.mp hnil with ⟨h1, h2⟩
    simp only [gridChars, List.mem_append] at hmem
    rcases hmem with hm | hm
    · exact occRow_ne_nil L r 0 line hm h1
    · exact ih (r + 1) hm h2

theorem occupied_ne_nil {lines : List (List Char)} {L : Char}
    (h : L ∈ gridChars lines) : occupied lines L ≠ [] :=
  occFrom_ne_nil L 0 lines h

theorem mem_sortedLabels {sc : List Char} {lines : List (List Char)} {L : Char} :
    L ∈ sortedLabels sc lines ↔ L ∈ gridChars lines ∧ isLabelChar sc L = true := by
  unfold sortedLabels
  rw [(List.perm_insertionSort _ _).mem_iff, List.mem_dedup, List.mem_filter]

theorem sortedLabels_nodup (sc : List Char) (lines : List (List Char)) :
    (sortedLabels sc lines).Nodup := by
  unfold sortedLabels
  exact (List.perm_insertionSort _ _).nodup_iff.mpr (List.nodup_dedup _)

theorem buildPanels_error {lines : List (List Char)} :
    ∀ {Ls : List Char} {e : LayErr}, buildPanels lines Ls = .error e →
      ∃ L ∈ Ls, occupied lines L ≠ [] ∧
        e = .nonRectangular L (occupied lines L).length (rectArea (occupied lines L)) ∧
        (occupied lines L).length ≠ rectArea (occupied lines L) := by
  intro Ls
  induction Ls with
  | nil => intro e h; simp [buildPanels] at h
  | cons L rest ih =>
    intro e h
    simp only [buildPanels] at h
    by_cases h1 : (occupied lines L).isEmpty = true
    · rw [if_pos h1] at h
      obtain ⟨L', hm, h3, h4, h5⟩ := ih h
      exact ⟨L', List.mem_cons_of_mem _ hm, h3, h4, h5⟩
    · rw [if_neg h1] at h
      by_cases h2 : (occupied lines L).length ≠ rectArea (occupied lines L)
      · rw [if_pos h2] at h
        injection h with he
        refine ⟨L, List.mem_cons_self _ _, ?_, he.symm, h2⟩
        intro hc
        exact h1 (by rw [hc]; rfl)
      · rw [if_neg h2] at h
        cases hrec : buildPanels lines rest with
        | error e2 =>
          rw [hrec] at h
          injection h with he
          obtain ⟨L', hm, h3, h4, h5⟩ := ih hrec
          exact ⟨L', List.mem_cons_of_mem _ hm, h3, he ▸ h4, h5⟩
        | ok out => rw [hrec] at h; cases h

theorem buildPanels_ok {lines : List (List Char)} :
    ∀ {Ls : List Char} {out : List LayoutNode}, buildPanels lines Ls = .ok out →
      (∀ L ∈ Ls, occupied lines L ≠ [] →
          (occupied lines L).length = rectArea (occupied lines L)) ∧
      out = (Ls.filter (fun L => !(occupied lines L).isEmpty)).map (mkPanelNode lines) := by
  intro Ls
  induction Ls with
  | nil =>
    intro out h
    simp only [buildPanels] at h
    injection h with h
    exact ⟨by simp, h.symm⟩
  | cons L rest ih =>
    intro out h
    simp only [buildPanels] at h
    by_cases h1 : (occupied lines L).isEmpty = true
    · rw [if_pos h1] at h
      obtain ⟨ha, hb⟩ := ih h
      constructor
      · intro L' hm hne
        rcases List.mem_cons.mp hm with rfl | hm'
        · exact absurd (List.isEmpty_iff.mp h1) hne
        · exact ha L' hm' hne
      · rw [hb, List.filter_cons]
        simp [h1]
    · rw [if_neg h1] at h
      by_cases h2 : (occupied lines L).length ≠ rectArea (occupied lines L)
      · rw [if_pos h2] at h; cases h
      · rw [if_neg h2] at h
        cases hrec : buildPanels lines rest with
        | error e2 => rw [hrec] at h; cases h
        | ok out2 =>
          rw [hrec] at h
          injection h with h
          obtain ⟨ha, hb⟩ := ih hrec
          have h1f : (occupied lines L).isEmpty = false := by
            simpa using h1
          constructor
          · intro L' hm hne
            rcases List.mem_cons.mp hm with rfl | hm'
            · exact not_not.mp h2
            · exact ha L' hm' hne
          · rw [← h, hb, List.filter_cons]
            simp [h1f]

theorem toString_beq (a b : Char) : (a.toString == b.toString) = (a == b) := by
  by_cases h : a = b
  · simp [h]
  · have hne : ¬ a.toString = b.toString := fun hc => h (Char.toString_inj hc)
    simp [h, hne]

theorem parse_grid_lines_nonRect {sc : List Char} {lines : List (List Char)}
    {L : Char} {f x : Nat}
    (h : parse_grid_lines sc lines = .error (.nonRectangular L f x)) :
    L ∈ sortedLabels sc lines ∧ f = (occupied lines L).length ∧
      x = rectArea (occupied lines L) ∧ f ≠ x := by
  simp only [parse_grid_lines] at h
  by_cases h1 : lines.isEmpty = true
  · rw [if_pos h1] at h; simp at h
  · rw [if_neg h1] at h
    by_cases h2 : (lines.headD []).length = 0
    · rw [if_pos h2] at h; simp at h
    · rw [if_neg h2] at h
      cases hb : buildPanels lines (sortedLabels sc lines) with
      | error e =>
        rw [hb] at h
        injection h with he
        obtain ⟨L', hm, hne, heq, hmis⟩ := buildPanels_error hb
        rw [he] at heq
        injection heq with hL hf hx
        subst hL hf hx
        exact ⟨hm, rfl, rfl, hmis⟩
      | ok out => rw [hb] at h; simp at h

theorem parse_grid_lines_error_of_mismatch {sc : List Char} {lines : List (List Char)}
    (h1 : ¬ lines.isEmpty = true) (h2 : ¬ (lines.headD []).length = 0)
    (hex : ∃ L ∈ sortedLabels sc lines,
      (occupied lines L).length ≠ rectArea (occupied lines L)) :
    ∃ L f x, parse_grid_lines sc lines = .error (.nonRectangular L f x) := by
  cases hb : buildPanels lines (sortedLabels sc lines) with
  | error e =>
    obtain ⟨L, hm, hne, heq, hmis⟩ := buildPanels_error hb
    refine ⟨L, (occupied lines L).length, rectArea (occupied lines L), ?_⟩
    simp only [parse_grid_lines, if_neg h1, if_neg h2, hb, heq]
  | ok out =>
    obtain ⟨L, hm, hmis⟩ := hex
    have hocc : occupied lines L ≠ [] := occupied_ne_nil (mem_sortedLabels.mp hm).1
    exact absurd ((buildPanels_ok hb).1 L hm hocc) hmis

theorem parse_grid_lines_ok_unique {sc : List Char} {lines : List (List Char)}
    {g : LayoutNode} (h : parse_grid_lines sc lines = .ok g) :
    ∀ L ∈ sortedLabels sc lines,
      g.children.filter (fun p => p.id == L.toString) = [mkPanelNode lines L] := by
  intro L hm
  simp only [parse_grid_lines] at h
  by_cases h1 : lines.isEmpty = true
  · rw [if_pos h1] at h; simp at h
  · rw [if_neg h1] at h
    by_cases h2 : (lines.headD []).length = 0
    · rw [if_pos h2] at h; simp at h
    · rw [if_neg h2] at h
      cases hb : buildPanels lines (sortedLabels sc lines) with
      | error e => rw [hb] at h; simp at h
      | ok out =>
        rw [hb] at h
        injection h with h
        obtain ⟨_, hout⟩ := buildPanels_ok hb
        rw [← h]
        simp only [LayoutNode.children]
        rw [hout, List.filter_map]
        have hpred : ∀ L' ∈ (sortedLabels sc lines).filter
            (fun L'' => !(occupied lines L'').isEmpty),
            ((fun p => p.id == L.toString) ∘ mkPanelNode lines) L' = (L' == L) := by
          intro L' _
          simp only [Function.comp, mkPanelNode, LayoutNode.id]
          exact toString_beq L' L
        rw [List.filter_congr hpred]
        have hnd : ((sortedLabels sc lines).filter
            (fun L'' => !(occupied lines L'').isEmpty)).Nodup :=
          (sortedLabels_nodup sc lines).filter _
        have hmf : L ∈ (sortedLabels sc lines).filter
            (fun L'' => !(occupied lines L'').isEmpty) := by
          rw [List.mem_filter]
          refine ⟨hm, ?_⟩
          have := occupied_ne_nil (mem_sortedLabels.mp hm).1
          simpa [List.isEmpty_iff] using this
        rw [filter_beq_of_nodup _ _ hnd hmf]
        rfl

/-! ## C5: overlap-check lemmas -/

theorem overlapDiags_eq_nil_iff (l : List LayoutNode) :
    overlapDiags l = [] ↔ l.Pairwise (fun p q => panels_overlap p q = false) := by
  induction l with
  | nil => simp [overlapDiags]
  | cons p ps ih =>
    simp only [overlapDiags, List.append_eq_nil, List.pairwise_cons, ih,
      List.filterMap_eq_nil_iff]
    constructor
    · rintro ⟨h1, h2⟩
      refine ⟨fun q hq => ?_, h2⟩
      have hthis := h1 q hq
      by_cases hpq : panels_overlap p q = true
      · rw [if_pos hpq] at hthis
        cases hthis
      · simpa using hpq
    · rintro ⟨h1, h2⟩
      refine ⟨fun q hq => ?_, h2⟩
      simp [h1 q hq]

/-! ## C8: orphaned-descriptor lemmas -/

theorem updateFirstList_none_iff (i : String) (f : LayoutNode → LayoutNode) :
    ∀ l : List LayoutNode,
      (∀ x ∈ l, (x.updateFirst i f = none ↔ x.get_descendant i = none)) →
      (LayoutNode.updateFirstList l i f = none ↔ LayoutNode.getDescendantList l i = none) := by
  intro l hl
  induction l with
  | nil => simp [LayoutNode.updateFirstList, LayoutNode.getDescendantList]
  | cons x xs ihx =>
    have ihx2 := ihx (fun z hz => hl z (by simp [hz]))
    simp only [LayoutNode.updateFirstList, LayoutNode.getDescendantList]
    cases hx : x.updateFirst i f with
    | some x2 =>
      cases hg : x.get_descendant i with
      | some r => simp
      | none =>
        rw [(hl x (by simp)).mpr hg] at hx
        cases hx
    | none =>
      rw [(hl x (by simp)).mp hx]
      cases hu : LayoutNode.updateFirstList xs i f with
      | none => simp [ihx2.mp hu]
      | some cs2 =>
        cases hd : LayoutNode.getDescendantList xs i with
        | none =>
          rw [ihx2.mpr hd] at hu
          cases hu
        | some r => simp

theorem updateFirst_none_iff (n : LayoutNode) (i : String) (f : LayoutNode → LayoutNode) :
    n.updateFirst i f = none ↔ n.get_descendant i = none := by
  induction n using LayoutNode.inductionOn with
  | h t nid l r c rs cs ch md p ih =>
    simp only [LayoutNode.updateFirst, LayoutNode.get_descendant]
    cases hid : (nid == i) with
    | true => simp
    | false =>
      simp only [Bool.false_eq_true, if_false]
      have hlist := updateFirstList_none_iff i f ch ih
      cases hu : LayoutNode.updateFirstList ch i f with
      | none => simp [hlist.mp hu]
      | some ch2 =>
        cases hd : LayoutNode.getDescendantList ch i with
        | none =>
          rw [hlist.mpr hd] at hu
          cases hu
        | some r2 => simp

theorem attach_sub_panels_skip (n : LayoutNode) (L : Char) (spec : SubSpec)
    (rest : List (Char × SubSpec)) (h : n.get_descendant L.toString = none) :
    attach_sub_panels_to_node n ((L, spec) :: rest) = attach_sub_panels_to_node n rest := by
  have hu : n.updateFirst L.toString (applySubSpec L.toString spec) = none :=
    (updateFirst_none_iff n L.toString _).mpr h
  simp [attach_sub_panels_to_node, hu]

theorem attach_insets_skip (sc : List Char) (n : LayoutNode) (L : Char)
    (specs : List InsetSpec) (rest : List (Char × List InsetSpec))
    (h : n.get_descendant L.toString = none) :
    attach_insets_to_node sc n ((L, specs) :: rest) = attach_insets_to_node sc n rest := by
  simp [attach_insets_to_node, h]

/-! ## C7: sub-panel synthesis lemmas -/

theorem enumFromN_getElem? (s : Nat) :
    ∀ (l : List α) (i : Nat), (enumFromN s l)[i]? = l[i]?.map (fun a => (s + i, a)) := by
  intro l
  induction l generalizing s with
  | nil => intro i; simp [enumFromN]
  | cons x xs ih =>
    intro i
    cases i with
    | zero => simp [enumFromN]
    | succ j =>
      simp only [enumFromN, List.getElem?_cons_succ]
      rw [ih (s + 1) j]
      have hadd : s + 1 + j = s + (j + 1) := by omega
      rw [hadd]

theorem enumFromN_length (s : Nat) : ∀ l : List α, (enumFromN s l).length = l.length := by
  intro l
  induction l generalizing s with
  | nil => simp [enumFromN]
  | cons x xs ih => simp [enumFromN, ih]

theorem withMetadata_children (n : LayoutNode) (md : Metadata) :
    (n.withMetadata md).children = n.children := by
  cases n
  rfl

theorem withChildren_children (n : LayoutNode) (ch : List LayoutNode) :
    (n.withChildren ch).children = ch := by
  cases n
  rfl

theorem applySubSpec_grid_children (pid : String) (L : Char) (items : List Char)
    (r c : Nat) (p : LayoutNode) (hm : gridSizeMatch items = some (r, c)) :
    (applySubSpec pid (mkSubSpec L items) p).children
      = p.children ++ (enumFromN 0 ((List.range (r * c)).map
          (fun i => L.toString ++ "." ++ toString i))).map (subGridChild pid c) := by
  simp only [mkSubSpec, hm, applySubSpec, withMetadata_children, withChildren_children]

theorem applySubSpec_list_children (pid : String) (L : Char) (items : List Char)
    (p : LayoutNode) (hm : gridSizeMatch items = none) :
    (applySubSpec pid (mkSubSpec L items) p).children
      = p.children ++ (enumFromN 0
          ((((splitOnChar ',' items).map stripChars).map
              (fun it => L.toString ++ "." ++ String.mk it)).zip
            (((splitOnChar ',' items).map stripChars).map String.mk))).map
          (subListChild pid) := by
  simp only [mkSubSpec, hm, applySubSpec, withMetadata_children, withChildren_children]

/-! ## The claim theorems -/

/-- C1: on every cleaned grid, the grid parser produces for each distinct
non-empty label exactly one Panel whose rectangle is `row = min_row`,
`col = min_col`, `rowspan = max_row - min_row + 1`,
`colspan = max_col - min_col + 1` over the label's occupied cells, and it
fails with an error naming a label (its cell count against the rectangle
area) exactly when some label's occupied-cell count differs from its
bounding rectangle's area; in particular `parse("aab/acc")` fails naming
label `a` with 3 cells against a 4-cell rectangle. -/
theorem C1_grid_rectangles :
    (∀ (lines : List (List Char)) (L : Char),
        (mkPanelNode lines L).id = L.toString ∧
        (mkPanelNode lines L).node_type = .panel ∧
        (mkPanelNode lines L).row = some (minRowOf (occupied lines L)) ∧
        (mkPanelNode lines L).col = some (minColOf (occupied lines L)) ∧
        (mkPanelNode lines L).rowspan
          = maxRowOf (occupied lines L) - minRowOf (occupied lines L) + 1 ∧
        (mkPanelNode lines L).colspan
          = maxColOf (occupied lines L) - minColOf (occupied lines L) + 1) ∧
    (∀ (sc : List Char) (lines : List (List Char)) (g : LayoutNode),
        parse_grid_lines sc lines = .ok g →
        ∀ L ∈ sortedLabels sc lines,
          g.children.filter (fun p => p.id == L.toString) = [mkPanelNode lines L]) ∧
    (∀ (sc : List Char) (lines : List (List Char)) (L : Char) (f x : Nat),
        parse_grid_lines sc lines = .error (.nonRectangular L f x) →
        L ∈ sortedLabels sc lines ∧ f = (occupied lines L).length ∧
          x = rectArea (occupied lines L) ∧ f ≠ x) ∧
    (∀ (sc : List Char) (lines : List (List Char)),
        ¬ lines.isEmpty = true → ¬ (lines.headD []).length = 0 →
        ((∃ L ∈ sortedLabels sc lines,
            (occupied lines L).length ≠ rectArea (occupied lines L)) ↔
          ∃ L f x, parse_grid_lines sc lines = .error (.nonRectangular L f x))) ∧
    parse true false "aab/acc" = .error (.nonRectangular 'a' 3 4) := by
  refine ⟨?_, ?_, ?_, ?_, rfl⟩
  · intro lines L
    exact ⟨rfl, rfl, rfl, rfl, rfl, rfl⟩
  · intro sc lines g h
    exact parse_grid_lines_ok_unique h
  · intro sc lines L f x h
    exact parse_grid_lines_nonRect h
  · intro sc lines h1 h2
    constructor
    · exact parse_grid_lines_error_of_mismatch h1 h2
    · rintro ⟨L, f, x, h⟩
      obtain ⟨hm, hf, hx, hne⟩ := parse_grid_lines_nonRect h
      subst hf
      subst hx
      exact ⟨L, hm, hne⟩

theorem C1_witness :
    'a' ∈ sortedLabels [] (clean_grid_code ("aab/acc".data)) ∧
    (3 : Nat) = (occupied (clean_grid_code ("aab/acc".data)) 'a').length ∧
    (4 : Nat) = rectArea (occupied (clean_grid_code ("aab/acc".data)) 'a') ∧
    (3 : Nat) ≠ 4 :=
  C1_grid_rectangles.2.2.1 [] (clean_grid_code ("aab/acc".data)) 'a' 3 4 (by rfl)

/-- C2: deserializing the serialized plain-map form of any node or tree
reproduces it exactly (same ids, node kinds, row/col/spans, metadata, and
nesting order) — in particular for every tree the parser can produce. -/
theorem C2_roundtrip :
    (∀ n : LayoutNode, LayoutNode.from_dict n.to_dict = some n) ∧
    (∀ t : LayoutTree, LayoutTree.from_dict t.to_dict = some t) :=
  ⟨from_dict_to_dict, tree_from_dict_to_dict⟩

/-- C3: `parse("[outer:[inner:ab]]")` does not contain a Section node for
`inner`; the outer Section's children are Panels derived from the raw
characters `i`, `n`, `e`, `r`, `a`, `b` of the un-re-extracted inner
construct, because `_create_section_node` never re-runs section
extraction on the stored content. -/
theorem C3_nested_sections_flattened :
    (parse true false "[outer:[inner:ab]]").toOption.map (fun t =>
      (t.nrows, t.ncols,
       t.root.children.map (fun c => (c.id, c.node_type)),
       (t.root.children.headD nullNode).children.map (fun c => (c.id, c.node_type)),
       (t.root.preorder.filter (fun n => n.node_type == .sec)).map LayoutNode.id))
    = some (1, 1, [("outer", .sec)],
        [("a", .panel), ("b", .panel), ("e", .panel), ("i", .panel),
         ("n", .panel), ("r", .panel)],
        ["outer"]) := rfl

/-- C4 counterexample: `"[x:ab"` contains a section opener `[x:` whose
bracket depth never returns to zero (the depth scan fails), yet `parse`
returns a tree instead of raising. -/
theorem C4_counterexample :
    scanBracket ("[x:ab".data) ("[x:ab".data.length + 1) 3 1 = none ∧
    (parse true false "[x:ab").isOk = true :=
  ⟨rfl, rfl⟩

/-- C4 amended: an unterminated `[name:` opener is not an error — the
section extractor leaves the input unchanged, the bracket and colon fall
out of the label set, and `parse("[x:ab")` returns a one-row tree with
panels `a`, `b`, `x`. -/
theorem C4_amended_unterminated_tolerated :
    extract_sections ("[x:ab".data) = ("[x:ab".data, []) ∧
    (parse true false "[x:ab").toOption.map (fun t =>
      (t.nrows, t.ncols,
       t.root.children.map (fun c => (c.id, c.node_type, c.row, c.col, c.rowspan, c.colspan))))
    = some (1, 5,
        [("a", .panel, some 0, some 3, 1, 1),
         ("b", .panel, some 0, some 4, 1, 1),
         ("x", .panel, some 0, some 1, 1, 1)]) :=
  ⟨rfl, rfl⟩

/-- C5 counterexample: sibling Panels at `(0,0,2,2)` and `(1,1,2,2)` inside
a Section that is itself inside a Section overlap, yet the Validator
returns no diagnostic at all — the overlap check never descends past the
first Section level. -/
theorem C5_counterexample :
    exNestedTree.root.children = [exOuterSection] ∧
    exOuterSection.node_type = .sec ∧
    exOuterSection.children = [exInnerSection] ∧
    exInnerSection.node_type = .sec ∧
    exInnerSection.children = [exPanelA, exPanelB] ∧
    panels_overlap exPanelA exPanelB = true ∧
    LayoutTreeValidator.validate defaultValidator exNestedTree = [] :=
  ⟨rfl, rfl, rfl, rfl, rfl, rfl, rfl⟩

/-- C5 amended: the Validator's overlap check reports no diagnostic exactly
when the flattened collection it inspects — the root's Panel children
together with the direct children of the root's Section children — is
pairwise non-overlapping; `panels_overlap` holds exactly on interval
intersection of `[row, row+rowspan)` and `[col, col+colspan)` when rows and
cols are present; the two concrete specification examples behave as
claimed.  Panels nested deeper (a Section inside a Section, or inside an
Inset) are never examined. -/
theorem C5_overlap_flattened :
    (∀ t : LayoutTree,
        check_overlaps t = []
          ↔ (overlapCandidates t).Pairwise (fun p q => panels_overlap p q = false)) ∧
    (∀ (p1 p2 : LayoutNode) (r1 r2 c1 c2 : Nat),
        p1.row = some r1 → p2.row = some r2 → p1.col = some c1 → p2.col = some c2 →
        (panels_overlap p1 p2 = true ↔
          (r1 < r2 + p2.rowspan ∧ r2 < r1 + p1.rowspan ∧
           c1 < c2 + p2.colspan ∧ c2 < c1 + p1.colspan))) ∧
    LayoutTreeValidator.validate defaultValidator exOverlapTree = [.overlap "a" "b"] ∧
    LayoutTreeValidator.validate defaultValidator exDisjointTree = [] := by
  refine ⟨?_, ?_, rfl, rfl⟩
  · intro t
    exact overlapDiags_eq_nil_iff (overlapCandidates t)
  · intro p1 p2 r1 r2 c1 c2 hr1 hr2 hc1 hc2
    simp only [panels_overlap, hr1, hr2, hc1, hc2, Option.getD_some, Bool.and_eq_true,
      Bool.not_eq_true', Bool.or_eq_false_iff, decide_eq_false_iff_not, not_le]
    omega

theorem C5_witness :
    (overlapCandidates exDisjointTree).Pairwise (fun p q => panels_overlap p q = false) :=
  (C5_overlap_flattened.1 exDisjointTree).mp (by rfl)

/-- C6: `parse("a{0.6,0.6,0.35,0.35}bc/def")` yields Panel `a` with exactly
one Inset child of kind `absolute` with bounds `(0.6, 0.6, 0.35, 0.35)`
and zero validation diagnostics; with bounds `(0.8, 0.8, 0.5, 0.5)` the
parse still succeeds and the Validator reports exactly one inset-bound
diagnostic (the `x+w>1 or y+h>1` check). -/
theorem C6_absolute_insets :
    ((parse true false "a{0.6,0.6,0.35,0.35}bc/def").toOption.map (fun t =>
        ((t.get_panel "a").map (fun p => p.children.map (fun ch =>
           (ch.id, ch.node_type, metaTypeOf ch.metadata, boundsOf ch.metadata))),
         LayoutTreeValidator.validate defaultValidator t))
      = some (some [("a_inset_0", .inset, some "absolute",
            (⟨6, 10⟩, ⟨6, 10⟩, ⟨35, 100⟩, ⟨35, 100⟩))], [])) ∧
    ((parse true false "a{0.8,0.8,0.5,0.5}bc/def").toOption.map (fun t =>
        ((t.get_panel "a").map (fun p => p.children.map (fun ch =>
           (ch.id, ch.node_type, metaTypeOf ch.metadata, boundsOf ch.metadata))),
         LayoutTreeValidator.validate defaultValidator t))
      = some (some [("a_inset_0", .inset, some "absolute",
            (⟨8, 10⟩, ⟨8, 10⟩, ⟨5, 10⟩, ⟨5, 10⟩))], [.insetOut "a"])) :=
  ⟨rfl, rfl⟩

/-- C7: a `letter[items]` annotation whose items match `<digits>x<digits>`
attaches `rows*cols` SubPanel children `letter.0 … letter.(rows*cols-1)`
with `row = i / cols`, `col = i % cols`; otherwise the items are split on
commas and item `i` becomes SubPanel `letter.<item>` at `row = 0`,
`col = i`; in particular `parse("a[i,ii,iii]b/cde")` yields Panel `a` with
SubPanels `a.i`, `a.ii`, `a.iii` at row 0, columns 0..2. -/
theorem C7_sub_panels :
    (∀ (L : Char) (items : List Char) (r c : Nat) (pid : String) (p : LayoutNode),
        gridSizeMatch items = some (r, c) →
        ((applySubSpec pid (mkSubSpec L items) p).children.length
            = p.children.length + r * c ∧
         ∀ i : Nat, i < r * c →
           ((applySubSpec pid (mkSubSpec L items) p).children[p.children.length + i]?).map
               (fun nd => (nd.id, nd.row, nd.col, nd.node_type))
             = some (L.toString ++ "." ++ toString i,
                 some (i / c), some (i % c), .subPanel))) ∧
    (∀ (L : Char) (items : List Char) (pid : String) (p : LayoutNode),
        gridSizeMatch items = none →
        ((applySubSpec pid (mkSubSpec L items) p).children.length
            = p.children.length + ((splitOnChar ',' items).map stripChars).length ∧
         ∀ (i : Nat) (it : List Char),
           ((splitOnChar ',' items).map stripChars)[i]? = some it →
           ((applySubSpec pid (mkSubSpec L items) p).children[p.children.length + i]?).map
               (fun nd => (nd.id, nd.row, nd.col, nd.node_type))
             = some (L.toString ++ "." ++ String.mk it, some 0, some i, .subPanel))) ∧
    ((parse true false "a[i,ii,iii]b/cde").toOption.map (fun t =>
        (t.get_panel "a").map (fun p => p.children.map (fun ch =>
          (ch.id, ch.row, ch.col, ch.node_type))))
      = some (some [("a.i", some 0, some 0, .subPanel),
          ("a.ii", some 0, some 1, .subPanel),
          ("a.iii", some 0, some 2, .subPanel)])) ∧
    ((parse true false "a[2x3]bc/def").toOption.map (fun t =>
        (t.get_panel "a").map (fun p => p.children.map (fun ch =>
          (ch.id, ch.row, ch.col))))
      = some (some [("a.0", some 0, some 0), ("a.1", some 0, some 1),
          ("a.2", some 0, some 2), ("a.3", some 1, some 0),
          ("a.4", some 1, some 1), ("a.5", some 1, some 2)])) := by
  refine ⟨?_, ?_, rfl, rfl⟩
  · intro L items r c pid p hm
    rw [applySubSpec_grid_children pid L items r c p hm]
    constructor
    · simp [enumFromN_length]
    · intro i hi
      rw [List.getElem?_append_right (Nat.le_add_right _ _), Nat.add_sub_cancel_left,
        List.getElem?_map, enumFromN_getElem?, List.getElem?_map, List.getElem?_range hi]
      simp [subGridChild, LayoutNode.id, LayoutNode.row, LayoutNode.col, LayoutNode.node_type]
  · intro L items pid p hm
    rw [applySubSpec_list_children pid L items p hm]
    rw [List.zip_map']
    constructor
    · simp [enumFromN_length]
    · intro i it hit
      rw [List.getElem?_append_right (Nat.le_add_right _ _), Nat.add_sub_cancel_left,
        List.getElem?_map, enumFromN_getElem?, List.getElem?_map, hit]
      simp [subListChild, LayoutNode.id, LayoutNode.row, LayoutNode.col, LayoutNode.node_type]

theorem C7_witness :
    (applySubSpec "a" (mkSubSpec 'a' ("2x3".data)) nullNode).children.length
        = nullNode.children.length + 2 * 3 ∧
    ((applySubSpec "a" (mkSubSpec 'a' ("2x3".data))
        nullNode).children[nullNode.children.length + 4]?).map
        (fun nd => (nd.id, nd.row, nd.col, nd.node_type))
      = some ("a" ++ "." ++ toString 4, some (4 / 3), some (4 % 3), .subPanel) := by
  have h := C7_sub_panels.1 'a' ("2x3".data) 2 3 "a" nullNode (by rfl)
  exact ⟨h.1, h.2 4 (by decide)⟩

/-- C8 counterexample: for `"a<b{0.2,0.2,0.3,0.3}c/de>f/gh"` the extractor
records an absolute-inset descriptor for `b` before the grid-inset
descriptor for `a`; when the descriptors are attached, the tree contains no
node `b` yet (it only appears later, inside `a`'s grid inset), so `b`'s
descriptor is an orphan at attachment time — and strict-mode `parse`
returns a tree with the descriptor silently dropped instead of raising a
validation error. -/
theorem C8_counterexample :
    ((parseMid orphanInput).toOption.map (fun m =>
        (m.insets, m.root2.get_descendant "b", m.root2.get_all_panel_ids)))
      = some ([('b', [.absolute ⟨2, 10⟩ ⟨2, 10⟩ ⟨3, 10⟩ ⟨3, 10⟩]),
               ('a', [.grid ("bc/de".data)])],
              none, ["a", "f", "g", "h"]) ∧
    (parse true true orphanInput).isOk = true ∧
    ((parse true true orphanInput).toOption.map (fun t =>
        ((t.get_panel "b").map (fun p => p.children.length), insetCheckNode t.root)))
      = some (some 0, []) :=
  ⟨rfl, rfl, rfl⟩

/-- C8 amended: a sub-panel or inset descriptor whose owning label is not
found in the tree at attachment time is silently dropped in every mode —
the attachment functions take no mode flag at all — and strict mode raises
only on validator diagnostics, which never mention dropped descriptors: on
the orphan input, lenient and strict parses return the same tree. -/
theorem C8_orphans_always_dropped :
    (∀ (n : LayoutNode) (L : Char) (spec : SubSpec) (rest : List (Char × SubSpec)),
        n.get_descendant L.toString = none →
        attach_sub_panels_to_node n ((L, spec) :: rest)
          = attach_sub_panels_to_node n rest) ∧
    (∀ (sc : List Char) (n : LayoutNode) (L : Char) (specs : List InsetSpec)
        (rest : List (Char × List InsetSpec)),
        n.get_descendant L.toString = none →
        attach_insets_to_node sc n ((L, specs) :: rest)
          = attach_insets_to_node sc n rest) ∧
    (∀ strict : Bool, parse true strict orphanInput = parse true true orphanInput) ∧
    (parse true true orphanInput).isOk = true := by
  refine ⟨attach_sub_panels_skip, attach_insets_skip, ?_, rfl⟩
  intro strict
  cases strict <;> rfl

theorem C8_witness :
    attach_insets_to_node [] nullNode
        [('b', [InsetSpec.absolute ⟨2, 10⟩ ⟨2, 10⟩ ⟨3, 10⟩ ⟨3, 10⟩])]
      = attach_insets_to_node [] nullNode [] :=
  C8_orphans_always_dropped.2.1 [] nullNode 'b'
    [InsetSpec.absolute ⟨2, 10⟩ ⟨2, 10⟩ ⟨3, 10⟩ ⟨3, 10⟩] [] (by rfl)

/-- C9: the Validator only reads the tree it is given — threaded through
the embedding, it returns its input tree unchanged — and it is
deterministic and idempotent: re-running it on the tree it returned yields
the same diagnostic list, and on an already-valid tree it yields the empty
list every time. -/
theorem C9_validator_pure :
    ∀ (v : LayoutTreeValidator) (t : LayoutTree),
      (validateM v t).1 = t ∧
      LayoutTreeValidator.validate v ((validateM v t).1)
        = LayoutTreeValidator.validate v t ∧
      (LayoutTreeValidator.validate v t = [] →
        LayoutTreeValidator.validate v ((validateM v t).1) = []) := by
  intro v t
  exact ⟨rfl, rfl, fun h => h⟩

theorem C9_witness :
    (validateM defaultValidator exValidTree).1 = exValidTree ∧
    LayoutTreeValidator.validate defaultValidator exValidTree = [] ∧
    LayoutTreeValidator.validate defaultValidator
        ((validateM defaultValidator exValidTree).1) = [] :=
  ⟨(C9_validator_pure defaultValidator exValidTree).1, rfl,
    (C9_validator_pure defaultValidator exValidTree).2.2 (by rfl)⟩

/-- C10: `get_panel` returns the first node of the preorder (depth-first)
traversal whose id matches, and returns `none` — it is a total function —
exactly when no node in the tree has the id. -/
theorem C10_get_panel_dfs :
    ∀ (t : LayoutTree) (i : String),
      t.get_panel i = t.root.preorder.find? (fun m => m.id == i) ∧
      (t.get_panel i = none ↔ ∀ m ∈ t.root.preorder, ¬ m.id = i) := by
  intro t i
  have h := get_descendant_eq_find t.root i
  refine ⟨h, ?_⟩
  rw [LayoutTree.get_panel, h, List.find?_eq_none]
  simp only [beq_iff_eq]

theorem C10_witness :
    exValidTree.get_panel "q" = none ∧
    exValidTree.get_panel "c"
      = exValidTree.root.preorder.find? (fun m => m.id == "c") :=
  ⟨(C10_get_panel_dfs exValidTree "q").2.mpr (by decide),
   (C10_get_panel_dfs exValidTree "c").1⟩

end FigCombo
